import Mathlib

/-!
Shallow embedding of the B3 batch ETL transformation engine
(`src/glue/etl_job.py`) and proofs about it.

Modelling conventions:
* Nullable numeric columns are `Option ℚ`; a missing (SQL `NULL`) value is
  `none`.
* Spark aggregate functions (`F.sum`, `F.avg`, `F.max`, `F.min`) ignore
  `NULL` inputs and return `NULL` only when every input is `NULL`; this is
  reflected by `sparkSum`, `sparkAvg`, `sparkMax`, `sparkMin` below.
* Spark column arithmetic propagates `NULL` operands, and division in the
  default (non-ANSI) mode yields `NULL` when the divisor is zero; this is
  reflected by `oSub`, `oMul`, `oDiv`.
* `F.first` / `F.last` (with the default `ignorenulls = False`) pick the
  value of the first / last row of the group in the order the engine
  happens to present the rows.  The embedding keeps the order of the input
  list; engine non-determinism is modelled by quantifying over
  permutations of that list.
* A DataFrame is a `List` of typed rows; each stage of `main` is one
  function on such lists.
-/

namespace B3Etl

/-- Calendar date carried by the `data` column (`DateType`): year, month, day. -/
structure Data where
  ano : Nat
  mes : Nat
  dia : Nat
deriving DecidableEq

/-- Chronological ordering key for dates (the usual `yyyymmdd` encoding),
used to model `orderBy('data')`. -/
def dataKey (d : Data) : Nat :=
  d.ano * 10000 + d.mes * 100 + d.dia

/-- One normalized raw row, after `rename_columns`: the columns of the raw
B3 dataset that the ETL job reads.  Nullable columns are `Option`. -/
structure RawRow where
  ticker : String
  data : Data
  preco_abertura : Option ℚ
  preco_maximo : Option ℚ
  preco_minimo : Option ℚ
  preco_fechamento : Option ℚ
  volume_negociado : Option ℚ
  dividendos : Option ℚ
  ticker_completo : Option String
deriving DecidableEq

/-- Output schema of `calculate_aggregations` (one row per `(ticker, data)`
group). -/
structure AggRow where
  ticker : String
  data : Data
  volume_total_diario : Option ℚ
  preco_medio_fechamento : Option ℚ
  contagem_registros : Nat
  preco_abertura : Option ℚ
  preco_maximo : Option ℚ
  preco_minimo : Option ℚ
  preco_fechamento : Option ℚ
  dividendos : Option ℚ
  ticker_completo : Option String
deriving DecidableEq

/-- Output schema of `calculate_date_based_metrics` (the helper column
`preco_fechamento_anterior` is dropped by the job and is not part of the
schema). -/
structure MetricRow extends AggRow where
  media_movel_7d : Option ℚ
  variacao_percentual_diaria : Option ℚ
  maxima_periodo : Option ℚ
  minima_periodo : Option ℚ
deriving DecidableEq

/-- Output schema of `add_partition_columns`. -/
structure PartRow extends MetricRow where
  data_particao : String
  ano : Nat
  mes : Nat
  dia : Nat
deriving DecidableEq

/-- Output schema of `add_quality_columns`.  The wall-clock column
`data_processamento` (`F.current_timestamp()`) is run metadata outside the
functional model and is not carried. -/
structure FinalRow extends PartRow where
  dados_validos : Bool
deriving DecidableEq

/-- Spark `F.sum` over a (nullable) column: `NULL` inputs are ignored;
the result is `NULL` iff no non-`NULL` input exists. -/
def sparkSum (xs : List (Option ℚ)) : Option ℚ :=
  if (xs.filterMap id).isEmpty then none else some (xs.filterMap id).sum

/-- Spark `F.avg` over a (nullable) column: arithmetic mean of the
non-`NULL` inputs; `NULL` iff no non-`NULL` input exists. -/
def sparkAvg (xs : List (Option ℚ)) : Option ℚ :=
  if (xs.filterMap id).isEmpty then none
  else some ((xs.filterMap id).sum / ((xs.filterMap id).length : ℚ))

/-- Spark `F.max` over a (nullable) column: maximum of the non-`NULL`
inputs; `NULL` iff no non-`NULL` input exists. -/
def sparkMax (xs : List (Option ℚ)) : Option ℚ :=
  match xs.filterMap id with
  | [] => none
  | v :: vs => some (vs.foldl max v)

/-- Spark `F.min` over a (nullable) column. -/
def sparkMin (xs : List (Option ℚ)) : Option ℚ :=
  match xs.filterMap id with
  | [] => none
  | v :: vs => some (vs.foldl min v)

/-- Spark `F.first` with default `ignorenulls = False`: the value stored in
the first row of the group (which may itself be `NULL`). -/
def firstVal {α : Type} (xs : List (Option α)) : Option α :=
  xs.headD none

/-- Spark `F.last` with default `ignorenulls = False`: the value stored in
the last row of the group. -/
def lastVal {α : Type} (xs : List (Option α)) : Option α :=
  xs.getLastD none

/-- Spark column subtraction: `NULL` operands propagate. -/
def oSub : Option ℚ → Option ℚ → Option ℚ
  | some a, some b => some (a - b)
  | _, _ => none

/-- Spark column multiplication: `NULL` operands propagate. -/
def oMul : Option ℚ → Option ℚ → Option ℚ
  | some a, some b => some (a * b)
  | _, _ => none

/-- Spark column division in the default (non-ANSI) mode: `NULL` operands
propagate and a zero divisor yields `NULL`. -/
def oDiv : Option ℚ → Option ℚ → Option ℚ
  | some a, some b => if b = 0 then none else some (a / b)
  | _, _ => none

/-- The rename table of `rename_columns` (`column_mapping` in the job),
in source order. -/
def column_mapping : List (String × String) :=
  [("Fechamento", "preco_fechamento"),
   ("Volume", "volume_negociado"),
   ("Abertura", "preco_abertura"),
   ("Maxima", "preco_maximo"),
   ("Minima", "preco_minimo"),
   ("Data", "data"),
   ("Ticker", "ticker"),
   ("TickerCompleto", "ticker_completo"),
   ("Dividendos", "dividendos"),
   ("Desdobramentos", "desdobramentos"),
   ("Ano", "ano"),
   ("Mes", "mes"),
   ("Dia", "dia")]

/-- One iteration of the loop in `rename_columns`:
`if old_name in df.columns: df = df.withColumnRenamed(old_name, new_name)`.
`withColumnRenamed` replaces every occurrence of the old column name. -/
def renameStep (cols : List String) (e : String × String) : List String :=
  if e.1 ∈ cols then cols.map (fun c => if c = e.1 then e.2 else c) else cols

/-- The loop of `rename_columns` run over an arbitrary rename table. -/
def applyRenames (tbl : List (String × String)) (cols : List String) : List String :=
  tbl.foldl renameStep cols

/-- `rename_columns`, acting on the schema (list of column names) of the
input DataFrame. -/
def rename_columns (cols : List String) : List String :=
  applyRenames column_mapping cols

/-- Canonical-name lookup: the target name of the first matching entry of
the rename table, or the column name itself when it is not a source name. -/
def canonize (c : String) : String :=
  (column_mapping.lookup c).getD c

/-- No entry of the table maps onto a source name of a later entry (this
holds for `column_mapping` and makes its sequential application
order-independent). -/
def targetsFresh : List (String × String) → Prop
  | [] => True
  | e :: rest => (∀ f ∈ rest, e.2 ≠ f.1) ∧ targetsFresh rest

instance : DecidablePred targetsFresh := by
  intro tbl
  induction tbl with
  | nil => exact isTrue trivial
  | cons e rest ih => exact @instDecidableAnd _ _ _ ih

/-- The grouping key of `groupBy('ticker', 'data')`. -/
def rowKey (r : RawRow) : String × Data :=
  (r.ticker, r.data)

/-- The rows of `df` contributing to the group of key `k`. -/
def keyPartition (df : List RawRow) (k : String × Data) : List RawRow :=
  df.filter (fun r => rowKey r = k)

/-- The aggregated row `calculate_aggregations` produces for the group of
key `k` (one `.agg(...)` call). -/
def aggRowFor (df : List RawRow) (k : String × Data) : AggRow :=
  { ticker := k.1
    data := k.2
    volume_total_diario := sparkSum ((keyPartition df k).map (fun r => r.volume_negociado))
    preco_medio_fechamento := sparkAvg ((keyPartition df k).map (fun r => r.preco_fechamento))
    contagem_registros := (keyPartition df k).length
    preco_abertura := firstVal ((keyPartition df k).map (fun r => r.preco_abertura))
    preco_maximo := sparkMax ((keyPartition df k).map (fun r => r.preco_maximo))
    preco_minimo := sparkMin ((keyPartition df k).map (fun r => r.preco_minimo))
    preco_fechamento := lastVal ((keyPartition df k).map (fun r => r.preco_fechamento))
    dividendos := sparkSum ((keyPartition df k).map (fun r => r.dividendos))
    ticker_completo := firstVal ((keyPartition df k).map (fun r => r.ticker_completo)) }

/-- `calculate_aggregations`: one output row per distinct `(ticker, data)`
key, in order of first appearance. -/
def calculate_aggregations (df : List RawRow) : List AggRow :=
  ((df.map rowKey).dedup).map (aggRowFor df)

/-- The ordering used by `Window.partitionBy('ticker').orderBy('data')`. -/
def dataLe (a b : AggRow) : Prop :=
  dataKey a.data ≤ dataKey b.data

instance : DecidableRel dataLe :=
  fun a b => Nat.decLe (dataKey a.data) (dataKey b.data)

/-- The per-ticker window partition, sorted ascending by date. -/
def tickerSeq (df : List AggRow) (t : String) : List AggRow :=
  List.insertionSort dataLe (df.filter (fun r => r.ticker = t))

/-- `F.avg('preco_fechamento').over(window_7d)` at position `i` of a
per-ticker date-sorted sequence: `rowsBetween(-6, 0)` covers the rows at
positions `max (0, i-6) .. i` (truncated `Nat` subtraction realizes the
`max`). -/
def mediaMovel7 (seq : List AggRow) (i : Nat) : Option ℚ :=
  sparkAvg (((seq.map (fun r => r.preco_fechamento)).take (i + 1)).drop (i - 6))

/-- `F.lag('preco_fechamento', 1)` over the date-sorted per-ticker window:
`NULL` at the first row, otherwise the previous row's close (which may
itself be `NULL`). -/
def lagPrecoFechamento (seq : List AggRow) : Nat → Option ℚ
  | 0 => none
  | j + 1 => (seq[j]?).bind (fun r => r.preco_fechamento)

/-- The close value of the row at position `i`. -/
def closeAt (seq : List AggRow) (i : Nat) : Option ℚ :=
  (seq[i]?).bind (fun r => r.preco_fechamento)

/-- `variacao_percentual_diaria`:
`F.when(prev.isNotNull(), (close - prev) / prev * 100).otherwise(0.0)`. -/
def variacaoPercentual (seq : List AggRow) (i : Nat) : Option ℚ :=
  if (lagPrecoFechamento seq i).isSome then
    oMul (oDiv (oSub (closeAt seq i) (lagPrecoFechamento seq i)) (lagPrecoFechamento seq i))
      (some 100)
  else some 0

/-- `F.max('preco_maximo').over(Window.partitionBy('ticker'))`: one value
per ticker, broadcast to every row of the partition. -/
def maximaPeriodo (seq : List AggRow) : Option ℚ :=
  sparkMax (seq.map (fun r => r.preco_maximo))

/-- `F.min('preco_minimo').over(Window.partitionBy('ticker'))`. -/
def minimaPeriodo (seq : List AggRow) : Option ℚ :=
  sparkMin (seq.map (fun r => r.preco_minimo))

/-- The enriched row `calculate_date_based_metrics` produces for the input
row `a` of DataFrame `df`: window metrics are computed over `a`'s ticker
partition sorted by date, at `a`'s position in that sequence (dates are
unique per ticker in the aggregated input, so the position is found by
date). -/
def metricRowFor (df : List AggRow) (a : AggRow) : MetricRow :=
  { toAggRow := a
    media_movel_7d := mediaMovel7 (tickerSeq df a.ticker) ((tickerSeq df a.ticker).findIdx (fun r => r.data = a.data))
    variacao_percentual_diaria := variacaoPercentual (tickerSeq df a.ticker) ((tickerSeq df a.ticker).findIdx (fun r => r.data = a.data))
    maxima_periodo := maximaPeriodo (tickerSeq df a.ticker)
    minima_periodo := minimaPeriodo (tickerSeq df a.ticker) }

/-- `calculate_date_based_metrics`, row by row. -/
def calculate_date_based_metrics (df : List AggRow) : List MetricRow :=
  df.map (metricRowFor df)

/-- Zero-padding to two digits, as in the `MM` / `dd` fields of
`date_format(..., 'yyyy-MM-dd')`. -/
def pad2 (n : Nat) : String :=
  if n < 10 then "0" ++ toString n else toString n

/-- Zero-padding to four digits, as in the `yyyy` field. -/
def pad4 (n : Nat) : String :=
  if n < 10 then "000" ++ toString n
  else if n < 100 then "00" ++ toString n
  else if n < 1000 then "0" ++ toString n
  else toString n

/-- `F.date_format('data', 'yyyy-MM-dd')`. -/
def fmtData (d : Data) : String :=
  pad4 d.ano ++ "-" ++ pad2 d.mes ++ "-" ++ pad2 d.dia

/-- The row produced by `add_partition_columns` for input row `m`:
`data_particao`, `ano`, `mes`, `dia` are derived from the `data` column. -/
def partRowOf (m : MetricRow) : PartRow :=
  { toMetricRow := m
    data_particao := fmtData m.data
    ano := m.data.ano
    mes := m.data.mes
    dia := m.data.dia }

/-- `add_partition_columns`. -/
def add_partition_columns (df : List MetricRow) : List PartRow :=
  df.map partRowOf

/-- The row produced by `add_quality_columns` for input row `r`:
`dados_validos` is the three-valued Spark condition
`close IS NOT NULL AND volume IS NOT NULL AND close > 0` collapsed by
`F.when(..., True).otherwise(False)`. -/
def qualityRowOf (r : PartRow) : FinalRow :=
  { toPartRow := r
    dados_validos :=
      match r.preco_fechamento, r.volume_total_diario with
      | some c, some _ => decide (0 < c)
      | _, _ => false }

/-- `add_quality_columns`. -/
def add_quality_columns (df : List PartRow) : List FinalRow :=
  df.map qualityRowOf

/-- The transformation pipeline of `main`, steps 3 to 6 (the in-memory
compute between the storage read and the storage write). -/
def runPipeline (df : List RawRow) : List FinalRow :=
  add_quality_columns (add_partition_columns (calculate_date_based_metrics (calculate_aggregations df)))

/-- The final output row the pipeline produces for the `(ticker, date)`
group of key `k` (the composition of the four per-row stage builders). -/
def pipelineRowFor (df : List RawRow) (k : String × Data) : FinalRow :=
  qualityRowOf (partRowOf (metricRowFor (calculate_aggregations df) (aggRowFor df k)))

/-- `register_in_catalog`: the catalog call is wrapped in
`try/except Exception`, so its own failure is swallowed and the function
always returns normally. -/
def register_in_catalog (catalog : List FinalRow → Except String Unit)
    (out : List FinalRow) : Except String Unit :=
  match catalog out with
  | Except.ok _ => Except.ok ()
  | Except.error _ => Except.ok ()

/-- The success/failure behaviour of `main` after the transformations:
`write_to_refined` is unguarded, so its exception escapes `main`'s `try`
and is re-raised; `register_in_catalog` swallows its own failure, after
which `main` completes normally. -/
def runJob (df : List RawRow) (write catalog : List FinalRow → Except String Unit) :
    Except String Unit :=
  match write (runPipeline df) with
  | Except.error e => Except.error e
  | Except.ok _ =>
    match register_in_catalog catalog (runPipeline df) with
    | Except.error e => Except.error e
    | Except.ok _ => Except.ok ()

/-! ### Concrete sample data used by the evaluation theorems -/

/-- A one-record-per-day aggregated sample row for ticker `T`. -/
def sampleAgg (dia : Nat) (cl hi lo : Option ℚ) : AggRow :=
  { ticker := "T"
    data := ⟨2024, 1, dia⟩
    volume_total_diario := some 1
    preco_medio_fechamento := cl
    contagem_registros := 1
    preco_abertura := some 2
    preco_maximo := hi
    preco_minimo := lo
    preco_fechamento := cl
    dividendos := some 0
    ticker_completo := none }

/-- A sample raw row. -/
def sampleRaw (t : String) (dia : Nat) (cl vol : Option ℚ) : RawRow :=
  { ticker := t
    data := ⟨2024, 1, dia⟩
    preco_abertura := some 2
    preco_maximo := some 10
    preco_minimo := some 1
    preco_fechamento := cl
    volume_negociado := vol
    dividendos := some 0
    ticker_completo := some (t ++ ".SA") }

/-- Sample per-ticker sequence with a `NULL` close in the middle. -/
def wSeq10 : List AggRow :=
  [sampleAgg 1 (some 5) (some 10) (some 1),
   sampleAgg 2 none (some 10) (some 1),
   sampleAgg 3 (some 3) (some 10) (some 1)]

/-- Sample per-ticker sequence with closes `7, 9, 0, 4`. -/
def wSeq2 : List AggRow :=
  [sampleAgg 1 (some 7) (some 10) (some 1),
   sampleAgg 2 (some 9) (some 10) (some 1),
   sampleAgg 3 (some 0) (some 10) (some 1),
   sampleAgg 4 (some 4) (some 10) (some 1)]

/-- Sample aggregated DataFrame for ticker `T` with varying highs/lows. -/
def wDf3 : List AggRow :=
  [sampleAgg 2 (some 5) (some 12) (some 3),
   sampleAgg 1 (some 6) (some 8) (some 2)]

/-- Aggregated row with `close = 0` and `total_volume = 1000` (the §8
quality scenario). -/
def wAgg0 : AggRow :=
  { ticker := "XYZ4"
    data := ⟨2024, 1, 5⟩
    volume_total_diario := some 1000
    preco_medio_fechamento := some 0
    contagem_registros := 1
    preco_abertura := some 0
    preco_maximo := some 0
    preco_minimo := some 0
    preco_fechamento := some 0
    dividendos := some 0
    ticker_completo := none }

def wPart0 : PartRow :=
  partRowOf
    { toAggRow := wAgg0
      media_movel_7d := none
      variacao_percentual_diaria := none
      maxima_periodo := none
      minima_periodo := none }

def wFinal0 : FinalRow :=
  qualityRowOf wPart0

/-- Sample raw DataFrame: two rows sharing the key `("A", 2024-01-01)` and
one row with key `("B", 2024-01-02)`. -/
def wDf4 : List RawRow :=
  [sampleRaw "A" 1 (some 3) (some 100),
   sampleRaw "A" 1 (some 5) (some 50),
   sampleRaw "B" 2 (some 4) (some 70)]

/-- Sample raw DataFrame of well-formed rows sharing one key. -/
def wDf5 : List RawRow :=
  [sampleRaw "A" 1 (some 3) (some 100),
   sampleRaw "A" 1 (some 5) (some 50)]

/-- The `(ticker, date)` key shared by the two counterexample rows. -/
def exKey : String × Data :=
  ("VALE3", ⟨2024, 1, 2⟩)

/-- Raw row with close `0`. -/
def exRowA : RawRow :=
  { ticker := "VALE3"
    data := ⟨2024, 1, 2⟩
    preco_abertura := some 2
    preco_maximo := some 10
    preco_minimo := some 1
    preco_fechamento := some 0
    volume_negociado := some 100
    dividendos := some 0
    ticker_completo := some "VALE3.SA" }

/-- Raw row with close `5`, same key as `exRowA`. -/
def exRowB : RawRow :=
  { ticker := "VALE3"
    data := ⟨2024, 1, 2⟩
    preco_abertura := some 2
    preco_maximo := some 10
    preco_minimo := some 1
    preco_fechamento := some 5
    volume_negociado := some 200
    dividendos := some 0
    ticker_completo := some "VALE3.SA" }

/-- The same input dataset as presented to run 1. -/
def exDf1 : List RawRow :=
  [exRowA, exRowB]

/-- The same input dataset in the row order the engine may present it to
run 2. -/
def exDf2 : List RawRow :=
  [exRowB, exRowA]

def junkAgg : AggRow :=
  { ticker := ""
    data := ⟨0, 0, 0⟩
    volume_total_diario := none
    preco_medio_fechamento := none
    contagem_registros := 0
    preco_abertura := none
    preco_maximo := none
    preco_minimo := none
    preco_fechamento := none
    dividendos := none
    ticker_completo := none }

def junkFinal : FinalRow :=
  { toPartRow :=
      { toMetricRow :=
          { toAggRow := junkAgg
            media_movel_7d := none
            variacao_percentual_diaria := none
            maxima_periodo := none
            minima_periodo := none }
        data_particao := ""
        ano := 0
        mes := 0
        dia := 0 }
    dados_validos := false }

/-- The output row of run 1 for `exKey`. -/
def wR1 : FinalRow :=
  ((runPipeline exDf1).find? (fun r => (r.ticker, r.data) = exKey)).getD junkFinal

/-- The output row of run 2 for `exKey`. -/
def wR2 : FinalRow :=
  ((runPipeline exDf2).find? (fun r => (r.ticker, r.data) = exKey)).getD junkFinal

/-- A write collaborator that always fails. -/
def wWriteFail : List FinalRow → Except String Unit :=
  fun _ => Except.error "storage unavailable"

/-- A write collaborator that always succeeds. -/
def wWriteOk : List FinalRow → Except String Unit :=
  fun _ => Except.ok ()

/-- A catalog collaborator that always fails. -/
def wCatalogFail : List FinalRow → Except String Unit :=
  fun _ => Except.error "catalog down"

/-! ### Generic list lemmas -/

theorem filterMap_id_map_some {α : Type} (l : List α) : (l.map some).filterMap id = l := by
  induction l with
  | nil => rfl
  | cons x xs ih => simp [ih]

theorem length_filterMap_of_all_some {α β : Type} (f : α → Option β) (l : List α)
    (h : ∀ x ∈ l, (f x).isSome) : (l.filterMap f).length = l.length := by
  induction l with
  | nil => rfl
  | cons x xs ih =>
    have hx := h x (List.mem_cons_self x xs)
    rcases Option.isSome_iff_exists.mp hx with ⟨b, hb⟩
    have ihx := ih (fun y hy => h y (List.mem_cons_of_mem x hy))
    simp [List.filterMap_cons, hb, ihx]

theorem sum_filterMap_getD {α : Type} (f : α → Option ℚ) (l : List α) :
    (l.filterMap f).sum = (l.map (fun x => (f x).getD 0)).sum := by
  induction l with
  | nil => rfl
  | cons x xs ih =>
    cases hx : f x with
    | none => simp [List.filterMap_cons, hx, ih]
    | some b => simp [List.filterMap_cons, hx, ih]

theorem le_foldl_max (l : List ℚ) (a : ℚ) : a ≤ l.foldl max a := by
  induction l generalizing a with
  | nil => exact le_refl a
  | cons x xs ih => exact le_trans (le_max_left a x) (ih (max a x))

theorem mem_le_foldl_max : ∀ (l : List ℚ) (a x : ℚ), x ∈ l → x ≤ l.foldl max a
  | [], _, _, hx => absurd hx (List.not_mem_nil _)
  | y :: ys, a, x, hx => by
    rcases List.mem_cons.mp hx with h | h
    · subst h
      exact le_trans (le_max_right a x) (le_foldl_max ys (max a x))
    · exact mem_le_foldl_max ys (max a y) x h

theorem foldl_max_mem : ∀ (l : List ℚ) (a : ℚ), l.foldl max a = a ∨ l.foldl max a ∈ l
  | [], _ => Or.inl rfl
  | x :: xs, a => by
    rcases foldl_max_mem xs (max a x) with h | h
    · rcases max_choice a x with hm | hm
      · left; rw [List.foldl_cons, h, hm]
      · right; rw [List.foldl_cons, h, hm]; exact List.mem_cons_self x xs
    · right
      exact List.mem_cons.mpr (Or.inr (by rw [List.foldl_cons]; exact h))

theorem foldl_min_le (l : List ℚ) (a : ℚ) : l.foldl min a ≤ a := by
  induction l generalizing a with
  | nil => exact le_refl a
  | cons x xs ih => exact le_trans (ih (min a x)) (min_le_left a x)

theorem foldl_min_le_mem : ∀ (l : List ℚ) (a x : ℚ), x ∈ l → l.foldl min a ≤ x
  | [], _, _, hx => absurd hx (List.not_mem_nil _)
  | y :: ys, a, x, hx => by
    rcases List.mem_cons.mp hx with h | h
    · subst h
      exact le_trans (foldl_min_le ys (min a x)) (min_le_right a x)
    · exact foldl_min_le_mem ys (min a y) x h

theorem foldl_min_mem : ∀ (l : List ℚ) (a : ℚ), l.foldl min a = a ∨ l.foldl min a ∈ l
  | [], _ => Or.inl rfl
  | x :: xs, a => by
    rcases foldl_min_mem xs (min a x) with h | h
    · rcases min_choice a x with hm | hm
      · left; rw [List.foldl_cons, h, hm]
      · right; rw [List.foldl_cons, h, hm]; exact List.mem_cons_self x xs
    · right
      exact List.mem_cons.mpr (Or.inr (by rw [List.foldl_cons]; exact h))

/-! ### Lemmas about the Spark aggregate embeddings -/

theorem sparkSum_map_some (l : List ℚ) (h : l ≠ []) : sparkSum (l.map some) = some l.sum := by
  unfold sparkSum
  rw [filterMap_id_map_some]
  simp [h]

theorem sparkAvg_map_some (l : List ℚ) (h : l ≠ []) :
    sparkAvg (l.map some) = some (l.sum / (l.length : ℚ)) := by
  unfold sparkAvg
  rw [filterMap_id_map_some]
  simp [h]

theorem sparkMax_char (xs : List (Option ℚ)) (h : xs.filterMap id ≠ []) :
    ∃ M, sparkMax xs = some M ∧ M ∈ xs.filterMap id ∧ ∀ x ∈ xs.filterMap id, x ≤ M := by
  rcases hfm : xs.filterMap id with _ | ⟨v, vs⟩
  · exact absurd hfm h
  · refine ⟨vs.foldl max v, ?_, ?_, ?_⟩
    · simp [sparkMax, hfm]
    · rcases foldl_max_mem vs v with h1 | h1
      · rw [h1]; exact List.mem_cons_self _ _
      · exact List.mem_cons.mpr (Or.inr h1)
    · intro x hx
      rcases List.mem_cons.mp hx with h1 | h1
      · subst h1; exact le_foldl_max vs x
      · exact mem_le_foldl_max vs v x h1

theorem sparkMin_char (xs : List (Option ℚ)) (h : xs.filterMap id ≠ []) :
    ∃ m, sparkMin xs = some m ∧ m ∈ xs.filterMap id ∧ ∀ x ∈ xs.filterMap id, m ≤ x := by
  rcases hfm : xs.filterMap id with _ | ⟨v, vs⟩
  · exact absurd hfm h
  · refine ⟨vs.foldl min v, ?_, ?_, ?_⟩
    · simp [sparkMin, hfm]
    · rcases foldl_min_mem vs v with h1 | h1
      · rw [h1]; exact List.mem_cons_self _ _
      · exact List.mem_cons.mpr (Or.inr h1)
    · intro x hx
      rcases List.mem_cons.mp hx with h1 | h1
      · subst h1; exact foldl_min_le vs x
      · exact foldl_min_le_mem vs v x h1

/-! ### Claim C1: trailing 7-row moving average -/

/-- Claim C1: for every ticker and every position `i` (0-indexed) in that
ticker's date-ascending sequence of daily summaries, `media_movel_7d` at
position `i` equals the arithmetic mean of the close values at positions
`max (0, i-6) .. i` of that sequence (`i - 6` is truncated `Nat`
subtraction, i.e. `max 0 (i-6)`): a row-based window of at most 7 rows,
independent of calendar gaps between the dates. -/
theorem mediaMovel7_row_window_mean (seq : List AggRow) (cs : List ℚ)
    (h : seq.map (fun r => r.preco_fechamento) = cs.map some) (i : Nat)
    (hi : i < seq.length) :
    mediaMovel7 seq i =
      some ((((cs.take (i + 1)).drop (i - 6)).sum) /
        ((((cs.take (i + 1)).drop (i - 6)).length : ℚ))) := by
  have hlen : seq.length = cs.length := by
    have h2 := congrArg List.length h
    simpa using h2
  have hw : ((seq.map (fun r => r.preco_fechamento)).take (i + 1)).drop (i - 6)
      = (((cs.take (i + 1)).drop (i - 6)).map some) := by
    rw [h, ← List.map_take, ← List.map_drop]
  have hne : ((cs.take (i + 1)).drop (i - 6)) ≠ [] := by
    have h1 : (cs.take (i + 1)).length = i + 1 := by
      rw [List.length_take]
      omega
    have h2 : (((cs.take (i + 1)).drop (i - 6))).length = i + 1 - (i - 6) := by
      rw [List.length_drop, h1]
    intro hcon
    rw [hcon] at h2
    simp at h2
    omega
  rw [mediaMovel7, hw, sparkAvg_map_some _ hne]

/-- Evaluation of `mediaMovel7_row_window_mean` on a concrete sequence. -/
theorem mediaMovel7_row_window_mean_witness :
    mediaMovel7 [sampleAgg 1 (some 7) (some 10) (some 1), sampleAgg 2 (some 9) (some 10) (some 1)] 1
      = some (((([(7 : ℚ), 9].take (1 + 1)).drop (1 - 6)).sum) /
        ((((([(7 : ℚ), 9].take (1 + 1)).drop (1 - 6)).length : ℚ)))) :=
  mediaMovel7_row_window_mean
    [sampleAgg 1 (some 7) (some 10) (some 1), sampleAgg 2 (some 9) (some 10) (some 1)]
    [7, 9] rfl 1 (by decide)

/-! ### Claim C10: null previous close defaults the percent change to zero -/

/-- Claim C10: for every row whose previous close in the date-ordered
sequence is `NULL` — because the row is the first of its ticker or because
the preceding row's close is itself `NULL` — `variacao_percentual_diaria`
is `0.0`, not `NULL` and not an error. -/
theorem variacao_null_prev_zero (seq : List AggRow) (i : Nat) (_hi : i < seq.length)
    (hnull : lagPrecoFechamento seq i = none) :
    variacaoPercentual seq i = some 0 := by
  simp [variacaoPercentual, hnull]

/-- Evaluation of `variacao_null_prev_zero` at a row whose predecessor
exists but carries a `NULL` close. -/
theorem variacao_null_prev_zero_witness : variacaoPercentual wSeq10 2 = some 0 :=
  variacao_null_prev_zero wSeq10 2 (by decide) (by decide)

/-! ### Claim C6: the data-quality flag -/

/-- Claim C6: `add_quality_columns` sets `dados_validos` to `true` iff the
row's close is non-`NULL`, its total volume is non-`NULL` and its close is
positive; in particular a close of `0` always yields `false`. -/
theorem dados_validos_iff (df : List PartRow) (r : FinalRow)
    (hr : r ∈ add_quality_columns df) :
    (r.dados_validos = true ↔
      (∃ c, r.preco_fechamento = some c ∧ 0 < c) ∧ r.volume_total_diario.isSome = true) ∧
    (r.preco_fechamento = some 0 → r.dados_validos = false) := by
  rcases List.mem_map.mp hr with ⟨p, _hp, hpr⟩
  subst hpr
  constructor
  · cases hc : p.preco_fechamento with
    | none => simp [qualityRowOf, hc]
    | some c =>
      cases hv : p.volume_total_diario with
      | none => simp [qualityRowOf, hc, hv]
      | some v => simp [qualityRowOf, hc, hv]
  · intro h0
    have hc : p.preco_fechamento = some 0 := h0
    cases hv : p.volume_total_diario with
    | none => simp [qualityRowOf, hc, hv]
    | some v => simp [qualityRowOf, hc, hv]

/-- Evaluation of `dados_validos_iff` on the §8 scenario row
(`close = 0`, `total_volume = 1000`). -/
theorem dados_validos_iff_witness :
    wFinal0.preco_fechamento = some 0 ∧ wFinal0.volume_total_diario = some 1000 ∧
      wFinal0.dados_validos = false := by
  refine ⟨rfl, rfl, ?_⟩
  exact (dados_validos_iff [wPart0] wFinal0 (List.mem_singleton.mpr rfl)).2 rfl

/-! ### Claim C8: write failures are fatal, catalog failures are not -/

theorem register_in_catalog_never_fails (catalog : List FinalRow → Except String Unit)
    (out : List FinalRow) : register_in_catalog catalog out = Except.ok () := by
  unfold register_in_catalog
  cases catalog out <;> rfl

/-- Claim C8: a failing dataset write aborts the run with that very error,
while the run reports success whenever the write succeeds, regardless of
whether the catalog-registration side call succeeds or fails. -/
theorem write_fatal_catalog_nonfatal (df : List RawRow)
    (write catalog : List FinalRow → Except String Unit) :
    (∀ e, write (runPipeline df) = Except.error e →
      runJob df write catalog = Except.error e) ∧
    (write (runPipeline df) = Except.ok () → runJob df write catalog = Except.ok ()) := by
  constructor
  · intro e he
    unfold runJob
    rw [he]
  · intro hok
    unfold runJob
    rw [hok, register_in_catalog_never_fails]

/-- Evaluation of `write_fatal_catalog_nonfatal` with a failing write and
with a succeeding write, the catalog call failing in both runs. -/
theorem write_fatal_catalog_nonfatal_witness :
    runJob [] wWriteFail wCatalogFail = Except.error "storage unavailable" ∧
      runJob [] wWriteOk wCatalogFail = Except.ok () :=
  ⟨(write_fatal_catalog_nonfatal [] wWriteFail wCatalogFail).1 "storage unavailable" rfl,
   (write_fatal_catalog_nonfatal [] wWriteOk wCatalogFail).2 rfl⟩

/-! ### Permutation invariance of the null-ignoring aggregates -/

theorem sparkSum_perm (xs ys : List (Option ℚ)) (h : xs.Perm ys) :
    sparkSum xs = sparkSum ys := by
  have hfm : (xs.filterMap id).Perm (ys.filterMap id) := h.filterMap id
  rcases hxe : xs.filterMap id with _ | ⟨v, vs⟩
  · rw [hxe] at hfm
    have hye : ys.filterMap id = [] := hfm.symm.eq_nil
    simp [sparkSum, hxe, hye]
  · rcases hye : ys.filterMap id with _ | ⟨w, ws⟩
    · rw [hxe, hye] at hfm
      exact absurd hfm.eq_nil (List.cons_ne_nil v vs)
    · have hsum : (v :: vs).sum = (w :: ws).sum := by
        have h2 := hfm.sum_eq
        rwa [hxe, hye] at h2
      simp [sparkSum, hxe, hye, hsum]

theorem sparkAvg_perm (xs ys : List (Option ℚ)) (h : xs.Perm ys) :
    sparkAvg xs = sparkAvg ys := by
  have hfm : (xs.filterMap id).Perm (ys.filterMap id) := h.filterMap id
  rcases hxe : xs.filterMap id with _ | ⟨v, vs⟩
  · rw [hxe] at hfm
    have hye : ys.filterMap id = [] := hfm.symm.eq_nil
    simp [sparkAvg, hxe, hye]
  · rcases hye : ys.filterMap id with _ | ⟨w, ws⟩
    · rw [hxe, hye] at hfm
      exact absurd hfm.eq_nil (List.cons_ne_nil v vs)
    · have hsum : (v :: vs).sum = (w :: ws).sum := by
        have h2 := hfm.sum_eq
        rwa [hxe, hye] at h2
      have hlen : (v :: vs).length = (w :: ws).length := by
        have h2 := hfm.length_eq
        rwa [hxe, hye] at h2
      simp [sparkAvg, hxe, hye, hsum, hlen]

theorem sparkMax_perm (xs ys : List (Option ℚ)) (h : xs.Perm ys) :
    sparkMax xs = sparkMax ys := by
  have hfm : (xs.filterMap id).Perm (ys.filterMap id) := h.filterMap id
  rcases hxe : xs.filterMap id with _ | ⟨v, vs⟩
  · rw [hxe] at hfm
    have hye : ys.filterMap id = [] := hfm.symm.eq_nil
    simp [sparkMax, hxe, hye]
  · have hne : ys.filterMap id ≠ [] := by
      intro hy
      rw [hxe, hy] at hfm
      exact List.cons_ne_nil v vs hfm.eq_nil
    obtain ⟨M1, hM1, hM1mem, hM1ub⟩ := sparkMax_char xs (by rw [hxe]; exact List.cons_ne_nil v vs)
    obtain ⟨M2, hM2, hM2mem, hM2ub⟩ := sparkMax_char ys hne
    have h12 : M1 ≤ M2 := hM2ub M1 (hfm.mem_iff.mp hM1mem)
    have h21 : M2 ≤ M1 := hM1ub M2 (hfm.mem_iff.mpr hM2mem)
    rw [hM1, hM2, le_antisymm h12 h21]

theorem sparkMin_perm (xs ys : List (Option ℚ)) (h : xs.Perm ys) :
    sparkMin xs = sparkMin ys := by
  have hfm : (xs.filterMap id).Perm (ys.filterMap id) := h.filterMap id
  rcases hxe : xs.filterMap id with _ | ⟨v, vs⟩
  · rw [hxe] at hfm
    have hye : ys.filterMap id = [] := hfm.symm.eq_nil
    simp [sparkMin, hxe, hye]
  · have hne : ys.filterMap id ≠ [] := by
      intro hy
      rw [hxe, hy] at hfm
      exact List.cons_ne_nil v vs hfm.eq_nil
    obtain ⟨m1, hm1, hm1mem, hm1lb⟩ := sparkMin_char xs (by rw [hxe]; exact List.cons_ne_nil v vs)
    obtain ⟨m2, hm2, hm2mem, hm2lb⟩ := sparkMin_char ys hne
    have h12 : m1 ≤ m2 := hm1lb m2 (hfm.mem_iff.mpr hm2mem)
    have h21 : m2 ≤ m1 := hm2lb m1 (hfm.mem_iff.mp hm1mem)
    rw [hm1, hm2, le_antisymm h21 h12]

/-! ### Claim C2: day-over-day percent change -/

/-- Claim C2: in a per-ticker date-ascending sequence whose closes are all
non-`NULL`, `variacao_percentual_diaria` is `0.0` at position `0` and
`(close i - close (i-1)) / close (i-1) * 100` at positions `i = j+1 > 0`
with a non-zero previous close; the division is not guarded against a zero
previous close — the `when` branch is still taken and Spark's division
yields `NULL` there. -/
theorem variacao_formula (seq : List AggRow) (cs : List ℚ)
    (h : seq.map (fun r => r.preco_fechamento) = cs.map some)
    (j : Nat) (p c : ℚ) (hp : cs[j]? = some p) (hc : cs[j + 1]? = some c) :
    (variacaoPercentual seq 0 = some 0) ∧
    (p ≠ 0 → variacaoPercentual seq (j + 1) = some ((c - p) / p * 100)) ∧
    (p = 0 → variacaoPercentual seq (j + 1) = none) := by
  have hj : (seq[j]?).map (fun r => r.preco_fechamento) = some (some p) := by
    rw [← List.getElem?_map, h, List.getElem?_map, hp]
    rfl
  have hj1 : (seq[j + 1]?).map (fun r => r.preco_fechamento) = some (some c) := by
    rw [← List.getElem?_map, h, List.getElem?_map, hc]
    rfl
  rcases hr : seq[j]? with _ | r
  · rw [hr] at hj
    exact absurd hj (by simp)
  rcases hr1 : seq[j + 1]? with _ | r1
  · rw [hr1] at hj1
    exact absurd hj1 (by simp)
  rw [hr] at hj
  rw [hr1] at hj1
  have hrp : r.preco_fechamento = some p := by
    simpa using hj
  have hr1c : r1.preco_fechamento = some c := by
    simpa using hj1
  have hlag : lagPrecoFechamento seq (j + 1) = some p := by
    simp [lagPrecoFechamento, hr, hrp]
  have hclose : closeAt seq (j + 1) = some c := by
    simp [closeAt, hr1, hr1c]
  refine ⟨by simp [variacaoPercentual, lagPrecoFechamento], ?_, ?_⟩
  · intro hp0
    simp [variacaoPercentual, hlag, hclose, oSub, oDiv, oMul, hp0]
  · intro hp0
    subst hp0
    simp [variacaoPercentual, hlag, hclose, oSub, oDiv, oMul]

/-- Evaluation of `variacao_formula` on the concrete closes `7, 9, 0, 4`:
zero at the first row, the percent formula at the second, `NULL` at the
row following the zero close. -/
theorem variacao_formula_witness :
    variacaoPercentual wSeq2 0 = some 0 ∧
      variacaoPercentual wSeq2 1 = some (((9 : ℚ) - 7) / 7 * 100) ∧
      variacaoPercentual wSeq2 3 = none :=
  ⟨(variacao_formula wSeq2 [7, 9, 0, 4] rfl 0 7 9 rfl rfl).1,
   (variacao_formula wSeq2 [7, 9, 0, 4] rfl 0 7 9 rfl rfl).2.1 (by norm_num),
   (variacao_formula wSeq2 [7, 9, 0, 4] rfl 2 0 4 rfl rfl).2.2 rfl⟩

/-! ### Claim C3: whole-history per-ticker extremes -/

theorem headD_mem {α : Type} (l : List α) (d : α) (h : l ≠ []) : l.headD d ∈ l := by
  cases l with
  | nil => exact absurd rfl h
  | cons x xs => exact List.mem_cons_self x xs

theorem tickerSeq_perm (df : List AggRow) (t : String) :
    (tickerSeq df t).Perm (df.filter (fun r => r.ticker = t)) :=
  List.perm_insertionSort dataLe (df.filter (fun r => r.ticker = t))

/-- Claim C3: every row the Window Metrics Engine produces for a ticker
carries the same `maxima_periodo` and `minima_periodo`, and when the
ticker's highs/lows are the non-`NULL` lists `hs`/`ls`, these equal the
true maximum of the highs and the true minimum of the lows over the
ticker's full sequence (not a trailing window). -/
theorem periodo_extremes (df : List AggRow) (t : String) (hs ls : List ℚ)
    (hh : (df.filter (fun r => r.ticker = t)).map (fun r => r.preco_maximo) = hs.map some)
    (hl : (df.filter (fun r => r.ticker = t)).map (fun r => r.preco_minimo) = ls.map some)
    (r : MetricRow) (hr : r ∈ calculate_date_based_metrics df) (ht : r.ticker = t) :
    (∃ M, r.maxima_periodo = some M ∧ M ∈ hs ∧ ∀ x ∈ hs, x ≤ M) ∧
    (∃ m, r.minima_periodo = some m ∧ m ∈ ls ∧ ∀ x ∈ ls, m ≤ x) ∧
    (∀ r2 ∈ calculate_date_based_metrics df, r2.ticker = t →
      r.maxima_periodo = r2.maxima_periodo ∧ r.minima_periodo = r2.minima_periodo) := by
  rcases List.mem_map.mp hr with ⟨a, ha, har⟩
  have hat : a.ticker = t := by
    rw [← har] at ht
    exact ht
  have hmax : r.maxima_periodo = maximaPeriodo (tickerSeq df t) := by
    rw [← har, ← hat]
    rfl
  have hmin : r.minima_periodo = minimaPeriodo (tickerSeq df t) := by
    rw [← har, ← hat]
    rfl
  have hafil : a ∈ df.filter (fun r => r.ticker = t) :=
    List.mem_filter.mpr ⟨ha, by simp [hat]⟩
  have hsne : hs ≠ [] := by
    intro hcon
    rw [hcon] at hh
    simp only [List.map_nil] at hh
    rw [List.map_eq_nil_iff] at hh
    rw [hh] at hafil
    exact List.not_mem_nil a hafil
  have hlne : ls ≠ [] := by
    intro hcon
    rw [hcon] at hl
    simp only [List.map_nil] at hl
    rw [List.map_eq_nil_iff] at hl
    rw [hl] at hafil
    exact List.not_mem_nil a hafil
  have hpermh : ((tickerSeq df t).map (fun r => r.preco_maximo)).Perm (hs.map some) := by
    rw [← hh]
    exact (tickerSeq_perm df t).map _
  have hperml : ((tickerSeq df t).map (fun r => r.preco_minimo)).Perm (ls.map some) := by
    rw [← hl]
    exact (tickerSeq_perm df t).map _
  have hmaxeq : maximaPeriodo (tickerSeq df t) = sparkMax (hs.map some) :=
    sparkMax_perm _ _ hpermh
  have hmineq : minimaPeriodo (tickerSeq df t) = sparkMin (ls.map some) :=
    sparkMin_perm _ _ hperml
  refine ⟨?_, ?_, ?_⟩
  · obtain ⟨M, hM, hMmem, hMub⟩ := sparkMax_char (hs.map some)
      (by rw [filterMap_id_map_some]; exact hsne)
    rw [filterMap_id_map_some] at hMmem hMub
    exact ⟨M, by rw [hmax, hmaxeq, hM], hMmem, hMub⟩
  · obtain ⟨m, hm, hmmem, hmlb⟩ := sparkMin_char (ls.map some)
      (by rw [filterMap_id_map_some]; exact hlne)
    rw [filterMap_id_map_some] at hmmem hmlb
    exact ⟨m, by rw [hmin, hmineq, hm], hmmem, hmlb⟩
  · intro r2 hr2 ht2
    rcases List.mem_map.mp hr2 with ⟨a2, _ha2, har2⟩
    have hat2 : a2.ticker = t := by
      rw [← har2] at ht2
      exact ht2
    have hmax2 : r2.maxima_periodo = maximaPeriodo (tickerSeq df t) := by
      rw [← har2, ← hat2]
      rfl
    have hmin2 : r2.minima_periodo = minimaPeriodo (tickerSeq df t) := by
      rw [← har2, ← hat2]
      rfl
    exact ⟨by rw [hmax, hmax2], by rw [hmin, hmin2]⟩

/-- Evaluation of `periodo_extremes` on a concrete two-row ticker history
with highs `12, 8` and lows `3, 2`. -/
theorem periodo_extremes_witness :
    (∃ M, ((calculate_date_based_metrics wDf3).headD (metricRowFor wDf3 wAgg0)).maxima_periodo
        = some M ∧ M ∈ [(12 : ℚ), 8] ∧ ∀ x ∈ [(12 : ℚ), 8], x ≤ M) ∧
    (∃ m, ((calculate_date_based_metrics wDf3).headD (metricRowFor wDf3 wAgg0)).minima_periodo
        = some m ∧ m ∈ [(3 : ℚ), 2] ∧ ∀ x ∈ [(3 : ℚ), 2], m ≤ x) ∧
    (∀ r2 ∈ calculate_date_based_metrics wDf3, r2.ticker = "T" →
      ((calculate_date_based_metrics wDf3).headD (metricRowFor wDf3 wAgg0)).maxima_periodo
          = r2.maxima_periodo ∧
        ((calculate_date_based_metrics wDf3).headD (metricRowFor wDf3 wAgg0)).minima_periodo
          = r2.minima_periodo) :=
  periodo_extremes wDf3 "T" [12, 8] [3, 2] rfl rfl
    ((calculate_date_based_metrics wDf3).headD (metricRowFor wDf3 wAgg0))
    (headD_mem (calculate_date_based_metrics wDf3) (metricRowFor wDf3 wAgg0)
      (by simp [calculate_date_based_metrics, wDf3]))
    rfl

/-! ### Claim C7: the Schema Normalizer -/

theorem renameStep_eq_map (cols : List String) (e : String × String) :
    renameStep cols e = cols.map (fun c => if c = e.1 then e.2 else c) := by
  unfold renameStep
  by_cases h : e.1 ∈ cols
  · rw [if_pos h]
  · rw [if_neg h]
    have hid : ∀ c ∈ cols, (if c = e.1 then e.2 else c) = c := by
      intro c hc
      apply if_neg
      intro hce
      rw [hce] at hc
      exact h hc
    calc cols = cols.map id := (List.map_id cols).symm
    _ = cols.map (fun c => if c = e.1 then e.2 else c) := by
      exact (List.map_congr_left (fun c hc => (hid c hc).symm))

theorem lookup_eq_none_keys (tbl : List (String × String)) (c : String)
    (h : ∀ f ∈ tbl, c ≠ f.1) : tbl.lookup c = none := by
  induction tbl with
  | nil => rfl
  | cons f rest ih =>
    obtain ⟨k, v⟩ := f
    have hbeq : (c == k) = false :=
      beq_eq_false_iff_ne.mpr (h (k, v) (List.mem_cons_self (k, v) rest))
    simp only [List.lookup, hbeq]
    exact ih (fun g hg => h g (List.mem_cons_of_mem (k, v) hg))

theorem applyRenames_eq_map (tbl : List (String × String)) (hinv : targetsFresh tbl)
    (cols : List String) :
    applyRenames tbl cols = cols.map (fun c => (tbl.lookup c).getD c) := by
  induction tbl generalizing cols with
  | nil =>
    simp [applyRenames, List.lookup]
  | cons e rest ih =>
    obtain ⟨o, n⟩ := e
    obtain ⟨hfresh, hrest⟩ := hinv
    have h1 : applyRenames ((o, n) :: rest) cols = applyRenames rest (renameStep cols (o, n)) :=
      rfl
    rw [h1, ih hrest, renameStep_eq_map, List.map_map]
    apply List.map_congr_left
    intro c _hc
    simp only [Function.comp]
    by_cases hc : c = o
    · have hnone : rest.lookup n = none :=
        lookup_eq_none_keys rest n (fun f hf => hfresh f hf)
      have hbeq : (c == o) = true := beq_iff_eq.mpr hc
      simp [hc, hnone, List.lookup]
    · have hbeq : (c == o) = false := beq_eq_false_iff_ne.mpr hc
      simp [hc, List.lookup, hbeq]

theorem renameStep_comm (e1 e2 : String × String)
    (h : e1 = e2 ∨ (e1.1 ≠ e2.1 ∧ e1.2 ≠ e2.1 ∧ e2.2 ≠ e1.1)) (cols : List String) :
    renameStep (renameStep cols e1) e2 = renameStep (renameStep cols e2) e1 := by
  rcases h with h | ⟨h1, h2, h3⟩
  · rw [h]
  · rw [renameStep_eq_map, renameStep_eq_map, renameStep_eq_map, renameStep_eq_map,
      List.map_map, List.map_map]
    apply List.map_congr_left
    intro c _hc
    simp only [Function.comp]
    by_cases hc1 : c = e1.1
    · subst hc1
      simp [h1, h2]
    · by_cases hc2 : c = e2.1
      · subst hc2
        simp [hc1, h3]
      · simp [hc1, hc2]

theorem column_mapping_comm :
    ∀ x ∈ column_mapping, ∀ y ∈ column_mapping,
      x = y ∨ (x.1 ≠ y.1 ∧ x.2 ≠ y.1 ∧ y.2 ≠ x.1) := by
  decide

theorem foldl_renameStep_of_perm :
    ∀ {l1 l2 : List (String × String)}, l1.Perm l2 →
      (∀ x ∈ l1, ∀ y ∈ l1, ∀ cols,
        renameStep (renameStep cols x) y = renameStep (renameStep cols y) x) →
      ∀ cols, l1.foldl renameStep cols = l2.foldl renameStep cols := by
  intro l1 l2 h
  induction h with
  | nil =>
    intro _ cols
    rfl
  | cons x h ih =>
    intro hc cols
    simp only [List.foldl_cons]
    exact ih
      (fun a ha b hb => hc a (List.mem_cons_of_mem x ha) b (List.mem_cons_of_mem x hb))
      (renameStep cols x)
  | swap x y l =>
    intro hc cols
    simp only [List.foldl_cons]
    rw [hc y (by simp) x (by simp) cols]
  | trans h1 _h2 ih1 ih2 =>
    intro hc cols
    rw [ih1 hc cols,
      ih2 (fun a ha b hb => hc a (h1.mem_iff.mpr ha) b (h1.mem_iff.mpr hb)) cols]

/-- Claim C7: `rename_columns` renames each known source field present in
the schema to its canonical name, leaves absent mapped fields and unmapped
extra fields untouched (it is the total function `map canonize`, so it
never fails), and the result does not depend on the order in which the
rename-table entries are applied. -/
theorem rename_columns_canonical :
    (∀ cols, rename_columns cols = cols.map canonize) ∧
    (∀ tbl, tbl.Perm column_mapping →
      ∀ cols, applyRenames tbl cols = rename_columns cols) := by
  constructor
  · intro cols
    exact applyRenames_eq_map column_mapping (by decide) cols
  · intro tbl hperm cols
    exact foldl_renameStep_of_perm hperm
      (fun x hx y hy cols2 =>
        renameStep_comm x y
          (column_mapping_comm x (hperm.mem_iff.mp hx) y (hperm.mem_iff.mp hy)) cols2)
      cols

/-- Evaluation of `rename_columns_canonical`: the reversed rename table
gives the same result as the source-order table on a concrete schema, and
that result maps present source names and passes `Extra` through. -/
theorem rename_columns_canonical_witness :
    applyRenames column_mapping.reverse ["Data", "Ticker", "Fechamento", "Volume", "Extra"] =
      rename_columns ["Data", "Ticker", "Fechamento", "Volume", "Extra"] ∧
    rename_columns ["Data", "Ticker", "Fechamento", "Volume", "Extra"] =
      ["data", "ticker", "preco_fechamento", "volume_negociado", "Extra"] := by
  constructor
  · exact rename_columns_canonical.2 column_mapping.reverse
      (List.reverse_perm column_mapping) ["Data", "Ticker", "Fechamento", "Volume", "Extra"]
  · rw [rename_columns_canonical.1]
    decide

/-! ### Claims C4 and C5: the Daily Aggregator -/

theorem sparkSum_eq_of_ne (xs : List (Option ℚ)) (h : xs.filterMap id ≠ []) :
    sparkSum xs = some (xs.filterMap id).sum := by
  rcases hxe : xs.filterMap id with _ | ⟨v, vs⟩
  · exact absurd hxe h
  · simp [sparkSum, hxe]

theorem sparkAvg_eq_of_ne (xs : List (Option ℚ)) (h : xs.filterMap id ≠ []) :
    sparkAvg xs = some ((xs.filterMap id).sum / ((xs.filterMap id).length : ℚ)) := by
  rcases hxe : xs.filterMap id with _ | ⟨v, vs⟩
  · exact absurd hxe h
  · simp [sparkAvg, hxe]

theorem sparkSum_getD (xs : List (Option ℚ)) :
    (sparkSum xs).getD 0 = (xs.filterMap id).sum := by
  rcases hxe : xs.filterMap id with _ | ⟨v, vs⟩ <;> simp [sparkSum, hxe]

theorem sum_map_add {α : Type} (l : List α) (f h : α → ℚ) :
    (l.map (fun x => f x + h x)).sum = (l.map f).sum + (l.map h).sum := by
  induction l with
  | nil => simp
  | cons x xs ih =>
    simp only [List.map_cons, List.sum_cons, ih]
    ring

theorem sum_map_ite_eq (ks : List (String × Data)) (k0 : String × Data) (c : ℚ)
    (hnd : ks.Nodup) (hmem : k0 ∈ ks) :
    (ks.map (fun k => if k0 = k then c else 0)).sum = c := by
  induction ks with
  | nil => cases hmem
  | cons j rest ih =>
    rcases List.mem_cons.mp hmem with h | h
    · subst h
      have hnotin : k0 ∉ rest := (List.nodup_cons.mp hnd).1
      have hz : (rest.map (fun k => if k0 = k then c else 0)).sum = 0 := by
        apply List.sum_eq_zero
        intro x hx
        rcases List.mem_map.mp hx with ⟨k, hk, hxk⟩
        rw [← hxk]
        apply if_neg
        intro he
        subst he
        exact hnotin hk
      simp [hz]
    · have hne : k0 ≠ j := by
        intro he
        have := (List.nodup_cons.mp hnd).1
        rw [← he] at this
        exact this h
      simp [if_neg hne, ih (List.nodup_cons.mp hnd).2 h]

theorem fiber_sum (df : List RawRow) (ks : List (String × Data)) (hnd : ks.Nodup)
    (hcov : ∀ r ∈ df, rowKey r ∈ ks) (g : RawRow → ℚ) :
    (ks.map (fun k => ((keyPartition df k).map g).sum)).sum = (df.map g).sum := by
  induction df with
  | nil => simp [keyPartition]
  | cons r rest ih =>
    have hcovr : ∀ x ∈ rest, rowKey x ∈ ks :=
      fun x hx => hcov x (List.mem_cons_of_mem r hx)
    have hsplit : ∀ k, ((keyPartition (r :: rest) k).map g).sum
        = (if rowKey r = k then g r else 0) + ((keyPartition rest k).map g).sum := by
      intro k
      by_cases hk : rowKey r = k
      · simp [keyPartition, List.filter_cons, hk]
      · simp [keyPartition, List.filter_cons, hk]
    rw [List.map_congr_left (fun k _ => hsplit k), sum_map_add,
      sum_map_ite_eq ks (rowKey r) (g r) hnd (hcov r (List.mem_cons_self r rest)),
      ih hcovr]
    simp

/-- Claim C4: `calculate_aggregations` produces exactly one output row per
distinct `(ticker, data)` key of the input, on which `volume_total_diario`
is the sum of the group's volumes, `preco_medio_fechamento` the mean of its
closes, `contagem_registros` the group size, `preco_maximo`/`preco_minimo`
the group's maximum high and minimum low, and `dividendos` the sum of its
dividends; consequently the total volume over all groups equals the total
volume over all raw rows. -/
theorem calculate_aggregations_contract (df : List RawRow)
    (hw : ∀ r ∈ df, r.volume_negociado.isSome = true ∧ r.preco_fechamento.isSome = true ∧
      r.preco_maximo.isSome = true ∧ r.preco_minimo.isSome = true ∧
      r.dividendos.isSome = true) :
    ((calculate_aggregations df).map (fun a => (a.ticker, a.data)) = (df.map rowKey).dedup) ∧
    (((calculate_aggregations df).map (fun a => (a.ticker, a.data))).Nodup) ∧
    (∀ k, k ∈ (calculate_aggregations df).map (fun a => (a.ticker, a.data)) ↔
      ∃ r ∈ df, rowKey r = k) ∧
    (∀ a ∈ calculate_aggregations df,
      keyPartition df (a.ticker, a.data) ≠ [] ∧
      a.volume_total_diario =
        some (((keyPartition df (a.ticker, a.data)).filterMap
          (fun r => r.volume_negociado)).sum) ∧
      a.preco_medio_fechamento =
        some ((((keyPartition df (a.ticker, a.data)).filterMap
            (fun r => r.preco_fechamento)).sum)
          / ((keyPartition df (a.ticker, a.data)).length : ℚ)) ∧
      a.contagem_registros = (keyPartition df (a.ticker, a.data)).length ∧
      (∃ M, a.preco_maximo = some M ∧
        M ∈ (keyPartition df (a.ticker, a.data)).filterMap (fun r => r.preco_maximo) ∧
        ∀ x ∈ (keyPartition df (a.ticker, a.data)).filterMap (fun r => r.preco_maximo),
          x ≤ M) ∧
      (∃ m, a.preco_minimo = some m ∧
        m ∈ (keyPartition df (a.ticker, a.data)).filterMap (fun r => r.preco_minimo) ∧
        ∀ x ∈ (keyPartition df (a.ticker, a.data)).filterMap (fun r => r.preco_minimo),
          m ≤ x) ∧
      a.dividendos =
        some (((keyPartition df (a.ticker, a.data)).filterMap (fun r => r.dividendos)).sum)) ∧
    (((calculate_aggregations df).map (fun a => a.volume_total_diario.getD 0)).sum
      = (df.filterMap (fun r => r.volume_negociado)).sum) := by
  have hkeys : (calculate_aggregations df).map (fun a => (a.ticker, a.data))
      = (df.map rowKey).dedup := by
    unfold calculate_aggregations
    rw [List.map_map]
    have hfun : ((fun a : AggRow => (a.ticker, a.data)) ∘ aggRowFor df)
        = (fun k : String × Data => k) := by
      funext k
      rfl
    rw [hfun, List.map_id']
  refine ⟨hkeys, ?_, ?_, ?_, ?_⟩
  · rw [hkeys]
    exact List.nodup_dedup _
  · intro k
    rw [hkeys, List.mem_dedup, List.mem_map]
  · intro a ha
    rcases List.mem_map.mp ha with ⟨k, hk, hka⟩
    subst hka
    have hkmem : k ∈ df.map rowKey := List.mem_dedup.mp hk
    rcases List.mem_map.mp hkmem with ⟨r0, hr0, hr0k⟩
    have hr0p : r0 ∈ keyPartition df k :=
      List.mem_filter.mpr ⟨hr0, by simp [hr0k]⟩
    have hpne : keyPartition df k ≠ [] := by
      intro hcon
      rw [hcon] at hr0p
      exact List.not_mem_nil r0 hr0p
    have hsub : ∀ x ∈ keyPartition df k, x ∈ df :=
      fun x hx => (List.mem_filter.mp hx).1
    obtain ⟨hv0, hc0, hM0, hm0, hd0⟩ := hw r0 hr0
    rcases Option.isSome_iff_exists.mp hv0 with ⟨v0, hv0e⟩
    rcases Option.isSome_iff_exists.mp hc0 with ⟨c0, hc0e⟩
    rcases Option.isSome_iff_exists.mp hM0 with ⟨M0, hM0e⟩
    rcases Option.isSome_iff_exists.mp hm0 with ⟨m0, hm0e⟩
    rcases Option.isSome_iff_exists.mp hd0 with ⟨d0, hd0e⟩
    have hvol_ne : (keyPartition df k).filterMap (fun r => r.volume_negociado) ≠ [] := by
      have : v0 ∈ (keyPartition df k).filterMap (fun r => r.volume_negociado) :=
        List.mem_filterMap.mpr ⟨r0, hr0p, hv0e⟩
      intro hcon
      rw [hcon] at this
      exact List.not_mem_nil v0 this
    have hclo_ne : (keyPartition df k).filterMap (fun r => r.preco_fechamento) ≠ [] := by
      have : c0 ∈ (keyPartition df k).filterMap (fun r => r.preco_fechamento) :=
        List.mem_filterMap.mpr ⟨r0, hr0p, hc0e⟩
      intro hcon
      rw [hcon] at this
      exact List.not_mem_nil c0 this
    have hmax_ne : (keyPartition df k).filterMap (fun r => r.preco_maximo) ≠ [] := by
      have : M0 ∈ (keyPartition df k).filterMap (fun r => r.preco_maximo) :=
        List.mem_filterMap.mpr ⟨r0, hr0p, hM0e⟩
      intro hcon
      rw [hcon] at this
      exact List.not_mem_nil M0 this
    have hmin_ne : (keyPartition df k).filterMap (fun r => r.preco_minimo) ≠ [] := by
      have : m0 ∈ (keyPartition df k).filterMap (fun r => r.preco_minimo) :=
        List.mem_filterMap.mpr ⟨r0, hr0p, hm0e⟩
      intro hcon
      rw [hcon] at this
      exact List.not_mem_nil m0 this
    have hdiv_ne : (keyPartition df k).filterMap (fun r => r.dividendos) ≠ [] := by
      have : d0 ∈ (keyPartition df k).filterMap (fun r => r.dividendos) :=
        List.mem_filterMap.mpr ⟨r0, hr0p, hd0e⟩
      intro hcon
      rw [hcon] at this
      exact List.not_mem_nil d0 this
    have hfmv : ((keyPartition df k).map (fun r => r.volume_negociado)).filterMap id
        = (keyPartition df k).filterMap (fun r => r.volume_negociado) := by
      rw [List.filterMap_map]
      rfl
    have hfmc : ((keyPartition df k).map (fun r => r.preco_fechamento)).filterMap id
        = (keyPartition df k).filterMap (fun r => r.preco_fechamento) := by
      rw [List.filterMap_map]
      rfl
    have hfmM : ((keyPartition df k).map (fun r => r.preco_maximo)).filterMap id
        = (keyPartition df k).filterMap (fun r => r.preco_maximo) := by
      rw [List.filterMap_map]
      rfl
    have hfmm : ((keyPartition df k).map (fun r => r.preco_minimo)).filterMap id
        = (keyPartition df k).filterMap (fun r => r.preco_minimo) := by
      rw [List.filterMap_map]
      rfl
    have hfmd : ((keyPartition df k).map (fun r => r.dividendos)).filterMap id
        = (keyPartition df k).filterMap (fun r => r.dividendos) := by
      rw [List.filterMap_map]
      rfl
    refine ⟨hpne, ?_, ?_, rfl, ?_, ?_, ?_⟩
    · show sparkSum ((keyPartition df k).map (fun r => r.volume_negociado)) = _
      rw [sparkSum_eq_of_ne _ (by rw [hfmv]; exact hvol_ne), hfmv]
      rfl
    · show sparkAvg ((keyPartition df k).map (fun r => r.preco_fechamento)) = _
      rw [sparkAvg_eq_of_ne _ (by rw [hfmc]; exact hclo_ne), hfmc,
        length_filterMap_of_all_some _ _ (fun x hx => (hw x (hsub x hx)).2.1)]
      rfl
    · obtain ⟨M, hM, hMmem, hMub⟩ :=
        sparkMax_char ((keyPartition df k).map (fun r => r.preco_maximo))
          (by rw [hfmM]; exact hmax_ne)
      rw [hfmM] at hMmem hMub
      exact ⟨M, hM, hMmem, hMub⟩
    · obtain ⟨m, hm, hmmem, hmlb⟩ :=
        sparkMin_char ((keyPartition df k).map (fun r => r.preco_minimo))
          (by rw [hfmm]; exact hmin_ne)
      rw [hfmm] at hmmem hmlb
      exact ⟨m, hm, hmmem, hmlb⟩
    · show sparkSum ((keyPartition df k).map (fun r => r.dividendos)) = _
      rw [sparkSum_eq_of_ne _ (by rw [hfmd]; exact hdiv_ne), hfmd]
      rfl
  · unfold calculate_aggregations
    rw [List.map_map]
    have hpt : ∀ k, ((fun a : AggRow => a.volume_total_diario.getD 0) ∘ aggRowFor df) k
        = ((keyPartition df k).map (fun r => (r.volume_negociado).getD 0)).sum := by
      intro k
      show (sparkSum ((keyPartition df k).map (fun r => r.volume_negociado))).getD 0 = _
      rw [sparkSum_getD, List.filterMap_map]
      exact sum_filterMap_getD _ _
    rw [List.map_congr_left (fun k _ => hpt k),
      fiber_sum df ((df.map rowKey).dedup) (List.nodup_dedup _)
        (fun r hr => List.mem_dedup.mpr (List.mem_map_of_mem rowKey hr))
        (fun r => (r.volume_negociado).getD 0),
      ← sum_filterMap_getD]

/-- Evaluation of `calculate_aggregations_contract` on a concrete raw
DataFrame with a duplicated key. -/
theorem calculate_aggregations_contract_witness :
    ((calculate_aggregations wDf4).map (fun a => (a.ticker, a.data))
      = (wDf4.map rowKey).dedup) ∧
    (((calculate_aggregations wDf4).map (fun a => a.volume_total_diario.getD 0)).sum
      = (wDf4.filterMap (fun r => r.volume_negociado)).sum) :=
  ⟨(calculate_aggregations_contract wDf4 (by decide)).1,
   (calculate_aggregations_contract wDf4 (by decide)).2.2.2.2⟩

theorem firstVal_map {α β : Type} (l : List α) (f : α → Option β) (h : l ≠ []) :
    firstVal (l.map f) = f (l.head h) := by
  cases l with
  | nil => exact absurd rfl h
  | cons x xs => rfl

theorem lastVal_map {α β : Type} : ∀ (l : List α) (f : α → Option β) (h : l ≠ []),
    lastVal (l.map f) = f (l.getLast h)
  | [], _, h => absurd rfl h
  | [x], f, _ => rfl
  | x :: y :: ys, f, _ => by
    have h2 : y :: ys ≠ [] := List.cons_ne_nil y ys
    have h3 : lastVal ((x :: y :: ys).map f) = lastVal ((y :: ys).map f) := rfl
    rw [h3, lastVal_map (y :: ys) f h2]
    congr 1

/-- Claim C5: for every aggregated row produced from well-formed input
(each contributing row satisfies `low ≤ open, close ≤ high`), the output
row satisfies `low ≤ min open close` and `max open close ≤ high`, where
`open`/`close` are the first/last picks of the group and `high`/`low` its
max/min. -/
theorem aggregation_ohlc_invariant (df : List RawRow)
    (hw : ∀ r ∈ df, ∃ op hi lo cl, r.preco_abertura = some op ∧ r.preco_maximo = some hi ∧
      r.preco_minimo = some lo ∧ r.preco_fechamento = some cl ∧
      lo ≤ op ∧ op ≤ hi ∧ lo ≤ cl ∧ cl ≤ hi)
    (a : AggRow) (ha : a ∈ calculate_aggregations df) :
    ∃ op hi lo cl, a.preco_abertura = some op ∧ a.preco_maximo = some hi ∧
      a.preco_minimo = some lo ∧ a.preco_fechamento = some cl ∧
      lo ≤ min op cl ∧ max op cl ≤ hi := by
  rcases List.mem_map.mp ha with ⟨k, hk, hka⟩
  subst hka
  have hkmem : k ∈ df.map rowKey := List.mem_dedup.mp hk
  rcases List.mem_map.mp hkmem with ⟨r0, hr0, hr0k⟩
  have hr0p : r0 ∈ keyPartition df k :=
    List.mem_filter.mpr ⟨hr0, by simp [hr0k]⟩
  have hpne : keyPartition df k ≠ [] := by
    intro hcon
    rw [hcon] at hr0p
    exact List.not_mem_nil r0 hr0p
  have hsub : ∀ x ∈ keyPartition df k, x ∈ df :=
    fun x hx => (List.mem_filter.mp hx).1
  set part := keyPartition df k with hpart
  have hhd : part.head hpne ∈ part := List.head_mem hpne
  have hlst : part.getLast hpne ∈ part := List.getLast_mem hpne
  obtain ⟨opH, hiH, loH, clH, habH, hmaxH, hminH, hfeH, h1H, h2H, h3H, h4H⟩ :=
    hw (part.head hpne) (hsub _ hhd)
  obtain ⟨opL, hiL, loL, clL, habL, hmaxL, hminL, hfeL, h1L, h2L, h3L, h4L⟩ :=
    hw (part.getLast hpne) (hsub _ hlst)
  have hab : (aggRowFor df k).preco_abertura = some opH := by
    show firstVal (part.map (fun r => r.preco_abertura)) = some opH
    rw [firstVal_map part _ hpne, habH]
  have hfe : (aggRowFor df k).preco_fechamento = some clL := by
    show lastVal (part.map (fun r => r.preco_fechamento)) = some clL
    rw [lastVal_map part _ hpne, hfeL]
  have hfmM : (part.map (fun r => r.preco_maximo)).filterMap id
      = part.filterMap (fun r => r.preco_maximo) := by
    rw [List.filterMap_map]
    rfl
  have hfmm : (part.map (fun r => r.preco_minimo)).filterMap id
      = part.filterMap (fun r => r.preco_minimo) := by
    rw [List.filterMap_map]
    rfl
  have hmax_ne : part.filterMap (fun r => r.preco_maximo) ≠ [] := by
    have : hiH ∈ part.filterMap (fun r => r.preco_maximo) :=
      List.mem_filterMap.mpr ⟨part.head hpne, hhd, hmaxH⟩
    intro hcon
    rw [hcon] at this
    exact List.not_mem_nil hiH this
  have hmin_ne : part.filterMap (fun r => r.preco_minimo) ≠ [] := by
    have : loH ∈ part.filterMap (fun r => r.preco_minimo) :=
      List.mem_filterMap.mpr ⟨part.head hpne, hhd, hminH⟩
    intro hcon
    rw [hcon] at this
    exact List.not_mem_nil loH this
  obtain ⟨M, hM, _hMmem, hMub⟩ :=
    sparkMax_char (part.map (fun r => r.preco_maximo)) (by rw [hfmM]; exact hmax_ne)
  obtain ⟨m, hm, _hmmem, hmlb⟩ :=
    sparkMin_char (part.map (fun r => r.preco_minimo)) (by rw [hfmm]; exact hmin_ne)
  rw [hfmM] at hMub
  rw [hfmm] at hmlb
  have hhiH_mem : hiH ∈ part.filterMap (fun r => r.preco_maximo) :=
    List.mem_filterMap.mpr ⟨part.head hpne, hhd, hmaxH⟩
  have hhiL_mem : hiL ∈ part.filterMap (fun r => r.preco_maximo) :=
    List.mem_filterMap.mpr ⟨part.getLast hpne, hlst, hmaxL⟩
  have hloH_mem : loH ∈ part.filterMap (fun r => r.preco_minimo) :=
    List.mem_filterMap.mpr ⟨part.head hpne, hhd, hminH⟩
  have hloL_mem : loL ∈ part.filterMap (fun r => r.preco_minimo) :=
    List.mem_filterMap.mpr ⟨part.getLast hpne, hlst, hminL⟩
  refine ⟨opH, M, m, clL, hab, hM, hm, hfe, ?_, ?_⟩
  · apply le_min
    · exact le_trans (hmlb loH hloH_mem) h1H
    · exact le_trans (hmlb loL hloL_mem) h3L
  · apply max_le
    · exact le_trans h2H (hMub hiH hhiH_mem)
    · exact le_trans h4L (hMub hiL hhiL_mem)

/-- Evaluation of `aggregation_ohlc_invariant` on a concrete well-formed
group of two rows. -/
theorem aggregation_ohlc_invariant_witness :
    ∃ op hi lo cl,
      (aggRowFor wDf5 ("A", ⟨2024, 1, 1⟩)).preco_abertura = some op ∧
      (aggRowFor wDf5 ("A", ⟨2024, 1, 1⟩)).preco_maximo = some hi ∧
      (aggRowFor wDf5 ("A", ⟨2024, 1, 1⟩)).preco_minimo = some lo ∧
      (aggRowFor wDf5 ("A", ⟨2024, 1, 1⟩)).preco_fechamento = some cl ∧
      lo ≤ min op cl ∧ max op cl ≤ hi := by
  apply aggregation_ohlc_invariant wDf5
  · intro r hr
    rcases List.mem_cons.mp hr with h | h
    · subst h
      exact ⟨2, 10, 1, 3, rfl, rfl, rfl, rfl, by decide, by decide, by decide, by decide⟩
    · rcases List.mem_cons.mp h with h2 | h2
      · subst h2
        exact ⟨2, 10, 1, 5, rfl, rfl, rfl, rfl, by decide, by decide, by decide, by decide⟩
      · exact absurd h2 (List.not_mem_nil r)
  · exact List.mem_map_of_mem (aggRowFor wDf5)
      (show ("A", (⟨2024, 1, 1⟩ : Data)) ∈ (wDf5.map rowKey).dedup by decide)

/-! ### Claim C9: what re-running the pipeline on the same input preserves

The engine presents the rows of the same stored input in an unspecified
order, so two runs on identical input are modelled as the pipeline applied
to two permutations of the same row list. -/

theorem runPipeline_eq_map (df : List RawRow) :
    runPipeline df = ((df.map rowKey).dedup).map (pipelineRowFor df) := by
  unfold runPipeline add_quality_columns add_partition_columns calculate_date_based_metrics
    calculate_aggregations
  rw [List.map_map, List.map_map, List.map_map]
  rfl

theorem find?_key_self (ks : List (String × Data)) (k : String × Data) :
    ks.find? (fun j => j = k) = if k ∈ ks then some k else none := by
  induction ks with
  | nil => simp
  | cons j rest ih =>
    by_cases hj : j = k
    · subst hj
      rw [List.find?_cons_of_pos _ (by simp)]
      simp
    · rw [List.find?_cons_of_neg _ (by simp [hj]), ih]
      by_cases hk : k ∈ rest
      · simp [hk, List.mem_cons]
      · have : k ∉ j :: rest := by
          intro hc
          rcases List.mem_cons.mp hc with hc1 | hc1
          · exact hj hc1.symm
          · exact hk hc1
        simp [hk, this]

theorem find?_pipelineRow (df : List RawRow) (k : String × Data) :
    (runPipeline df).find? (fun r => (r.ticker, r.data) = k)
      = if k ∈ (df.map rowKey).dedup then some (pipelineRowFor df k) else none := by
  rw [runPipeline_eq_map df, List.find?_map]
  have hpred : ((fun r : FinalRow => decide ((r.ticker, r.data) = k)) ∘ pipelineRowFor df)
      = fun j => decide (j = k) := rfl
  rw [hpred, find?_key_self]
  by_cases hk : k ∈ (df.map rowKey).dedup
  · simp [hk]
  · simp [hk]

theorem tickerSeq_proj_perm (df1 df2 : List RawRow) (hperm : df1.Perm df2) (t : String)
    (f : AggRow → Option ℚ)
    (hf : ∀ k, f (aggRowFor df1 k) = f (aggRowFor df2 k)) :
    ((tickerSeq (calculate_aggregations df1) t).map f).Perm
      ((tickerSeq (calculate_aggregations df2) t).map f) := by
  have hkeys : ((df1.map rowKey).dedup).Perm ((df2.map rowKey).dedup) :=
    (hperm.map rowKey).dedup
  have h1 := (tickerSeq_perm (calculate_aggregations df1) t).map f
  have h2 := (tickerSeq_perm (calculate_aggregations df2) t).map f
  refine h1.trans (List.Perm.trans ?_ h2.symm)
  have e1 : ((calculate_aggregations df1).filter (fun r => r.ticker = t)).map f
      = (((df1.map rowKey).dedup).filter (fun j => decide (j.1 = t))).map
          (fun j => f (aggRowFor df1 j)) := by
    unfold calculate_aggregations
    rw [List.filter_map, List.map_map]
    rfl
  have e2 : ((calculate_aggregations df2).filter (fun r => r.ticker = t)).map f
      = (((df2.map rowKey).dedup).filter (fun j => decide (j.1 = t))).map
          (fun j => f (aggRowFor df2 j)) := by
    unfold calculate_aggregations
    rw [List.filter_map, List.map_map]
    rfl
  rw [e1, e2, List.map_congr_left (fun j _ => hf j)]
  exact (hkeys.filter _).map _

theorem pipelineRow_nonpick_eq (df1 df2 : List RawRow) (hperm : df1.Perm df2)
    (k : String × Data) :
    (pipelineRowFor df1 k).ticker = (pipelineRowFor df2 k).ticker ∧
    (pipelineRowFor df1 k).data = (pipelineRowFor df2 k).data ∧
    (pipelineRowFor df1 k).volume_total_diario = (pipelineRowFor df2 k).volume_total_diario ∧
    (pipelineRowFor df1 k).preco_medio_fechamento
      = (pipelineRowFor df2 k).preco_medio_fechamento ∧
    (pipelineRowFor df1 k).contagem_registros = (pipelineRowFor df2 k).contagem_registros ∧
    (pipelineRowFor df1 k).preco_maximo = (pipelineRowFor df2 k).preco_maximo ∧
    (pipelineRowFor df1 k).preco_minimo = (pipelineRowFor df2 k).preco_minimo ∧
    (pipelineRowFor df1 k).dividendos = (pipelineRowFor df2 k).dividendos ∧
    (pipelineRowFor df1 k).maxima_periodo = (pipelineRowFor df2 k).maxima_periodo ∧
    (pipelineRowFor df1 k).minima_periodo = (pipelineRowFor df2 k).minima_periodo ∧
    (pipelineRowFor df1 k).data_particao = (pipelineRowFor df2 k).data_particao ∧
    (pipelineRowFor df1 k).ano = (pipelineRowFor df2 k).ano ∧
    (pipelineRowFor df1 k).mes = (pipelineRowFor df2 k).mes ∧
    (pipelineRowFor df1 k).dia = (pipelineRowFor df2 k).dia := by
  have hpart : (keyPartition df1 k).Perm (keyPartition df2 k) :=
    hperm.filter _
  refine ⟨rfl, rfl, ?_, ?_, ?_, ?_, ?_, ?_, ?_, ?_, rfl, rfl, rfl, rfl⟩
  · exact sparkSum_perm _ _ (hpart.map _)
  · exact sparkAvg_perm _ _ (hpart.map _)
  · exact hpart.length_eq
  · exact sparkMax_perm _ _ (hpart.map _)
  · exact sparkMin_perm _ _ (hpart.map _)
  · exact sparkSum_perm _ _ (hpart.map _)
  · exact sparkMax_perm _ _
      (tickerSeq_proj_perm df1 df2 hperm k.1 (fun r => r.preco_maximo)
        (fun j => sparkMax_perm _ _ ((hperm.filter _).map _)))
  · exact sparkMin_perm _ _
      (tickerSeq_proj_perm df1 df2 hperm k.1 (fun r => r.preco_minimo)
        (fun j => sparkMin_perm _ _ ((hperm.filter _).map _)))

/-- Claim C9 (amended): for two runs of the pipeline on the same input
dataset (the engine presenting its rows in possibly different orders),
each `(ticker, date)` key is present in one run's output iff it is in the
other's, and the output rows for that key agree on every field that does
not depend on a representative pick: the key itself, `volume_total_diario`,
`preco_medio_fechamento`, `contagem_registros`, `preco_maximo`,
`preco_minimo`, `dividendos`, `maxima_periodo`, `minima_periodo`,
`data_particao`, `ano`, `mes`, `dia`.  (The picked `preco_abertura`,
`preco_fechamento`, `ticker_completo` — and the fields derived from the
picked close: `media_movel_7d`, `variacao_percentual_diaria`,
`dados_validos` — may differ, see the counterexample.) -/
theorem pipeline_rerun_key_determinism (df1 df2 : List RawRow) (hperm : df1.Perm df2)
    (k : String × Data) :
    (((runPipeline df1).find? (fun r => (r.ticker, r.data) = k)).isSome
      ↔ ((runPipeline df2).find? (fun r => (r.ticker, r.data) = k)).isSome) ∧
    (∀ r1 r2 : FinalRow,
      (runPipeline df1).find? (fun r => (r.ticker, r.data) = k) = some r1 →
      (runPipeline df2).find? (fun r => (r.ticker, r.data) = k) = some r2 →
      r1.ticker = r2.ticker ∧ r1.data = r2.data ∧
      r1.volume_total_diario = r2.volume_total_diario ∧
      r1.preco_medio_fechamento = r2.preco_medio_fechamento ∧
      r1.contagem_registros = r2.contagem_registros ∧
      r1.preco_maximo = r2.preco_maximo ∧
      r1.preco_minimo = r2.preco_minimo ∧
      r1.dividendos = r2.dividendos ∧
      r1.maxima_periodo = r2.maxima_periodo ∧
      r1.minima_periodo = r2.minima_periodo ∧
      r1.data_particao = r2.data_particao ∧
      r1.ano = r2.ano ∧ r1.mes = r2.mes ∧ r1.dia = r2.dia) := by
  have hmem : k ∈ (df1.map rowKey).dedup ↔ k ∈ (df2.map rowKey).dedup :=
    ((hperm.map rowKey).dedup).mem_iff
  constructor
  · rw [find?_pipelineRow, find?_pipelineRow]
    by_cases h1 : k ∈ (df1.map rowKey).dedup
    · rw [if_pos h1, if_pos (hmem.mp h1)]
      simp
    · rw [if_neg h1, if_neg (fun h => h1 (hmem.mpr h))]
  · intro r1 r2 h1 h2
    rw [find?_pipelineRow] at h1 h2
    by_cases hk1 : k ∈ (df1.map rowKey).dedup
    · rw [if_pos hk1] at h1
      rw [if_pos (hmem.mp hk1)] at h2
      have hr1 : r1 = pipelineRowFor df1 k := (Option.some.inj h1).symm
      have hr2 : r2 = pipelineRowFor df2 k := (Option.some.inj h2).symm
      rw [hr1, hr2]
      exact pipelineRow_nonpick_eq df1 df2 hperm k
    · rw [if_neg hk1] at h1
      cases h1

/-- Evaluation of `pipeline_rerun_key_determinism` on the two orderings of
the concrete two-row dataset. -/
theorem pipeline_rerun_key_determinism_witness :
    wR1.ticker = wR2.ticker ∧ wR1.data = wR2.data ∧
    wR1.volume_total_diario = wR2.volume_total_diario ∧
    wR1.preco_medio_fechamento = wR2.preco_medio_fechamento ∧
    wR1.contagem_registros = wR2.contagem_registros ∧
    wR1.preco_maximo = wR2.preco_maximo ∧
    wR1.preco_minimo = wR2.preco_minimo ∧
    wR1.dividendos = wR2.dividendos ∧
    wR1.maxima_periodo = wR2.maxima_periodo ∧
    wR1.minima_periodo = wR2.minima_periodo ∧
    wR1.data_particao = wR2.data_particao ∧
    wR1.ano = wR2.ano ∧ wR1.mes = wR2.mes ∧ wR1.dia = wR2.dia :=
  (pipeline_rerun_key_determinism exDf1 exDf2 (by decide) exKey).2 wR1 wR2 rfl rfl

/-- Claim C9 as stated is false on the code: `dados_validos` is not one of
the representative-value picks (`open`, `close`, `ticker_full`), yet two
runs on the same two-row input — one presenting the close-`0` row last,
one presenting the close-`5` row last — disagree on it for the same
`(ticker, date)` row, because it is derived from the picked close. -/
theorem pipeline_rerun_counterexample :
    exDf1.Perm exDf2 ∧
    ((runPipeline exDf1).find? (fun r => (r.ticker, r.data) = exKey)).map
        (fun r => r.dados_validos) = some true ∧
    ((runPipeline exDf2).find? (fun r => (r.ticker, r.data) = exKey)).map
        (fun r => r.dados_validos) = some false :=
  ⟨by decide, rfl, rfl⟩

end B3Etl
